import Mathlib

/-!
Verification of the reactive synchronization engine of `slack-term-c`
(`src/main.c`).  The C program stores all its state in sqlite tables
(`kvs`, `conversation`, `conversation_list`, `user`, `message`); every row
mutation is captured by `update_hook` as a `state_update` record appended to
a FIFO queue, which `process_state_update_queue` drains, running the four
registered listeners for each record.  This file is a shallow embedding of
those functions: tables become Lean lists, sqlite hook records become an
explicit queue inside the system state, and the fail-fast `sqlite_check_ex`
macro (which raises SIGTERM) becomes an `Except` error.
-/

namespace Slack

/-! ## Layout engine: `wordlen` and `wrap` (main.c lines 1806-1855)

Codepoints are modelled as `Nat` (the C code uses `u_int32_t`); 32 is a
space, 10 is the line-break codepoint. -/

/-- Embedding of `wordlen` (main.c 1806-1817).  The C loop increments `i`
both in the loop body and in the `for` update clause, so it examines only
every other codepoint after `start` and can step past the terminating
space; the returned count is `i - start` for the final `i`.  The fuel
parameter only drives structural recursion: each step moves `i` up by 2 and
the loop stops as soon as `i` reaches `str.length`, so `str.length + 1`
units (as passed by `wordlen`) are always enough and the fuel-0 branch is
unreachable. -/
def wordlenAux (str : List Nat) : Nat → Nat → Nat
  | 0, i => i
  | fuel + 1, i =>
    if h : i < str.length then
      if str.get ⟨i, h⟩ = 32 ∨ str.get ⟨i, h⟩ = 10 then i
      else wordlenAux str fuel (i + 2)
    else i

def wordlen (str : List Nat) (start : Nat) : Nat :=
  wordlenAux str (str.length + 1) start - start

/-- One pass of the `wrap` loop (main.c 1823-1855), fuelled because the C
loop does not terminate when `wrapline <= 0` (the force-break branch does
not advance `i`).  State: current index `i`, accumulated `result` lines and
the current `line`.  `none` models a run that exhausts its fuel. -/
def wrapAux (w : Nat) (str : List Nat) :
    Nat → Nat → List (List Nat) → List Nat → Option (List (List Nat))
  | 0, _, _, _ => none
  | fuel + 1, i, result, line =>
    if h : i < str.length then
      let ch := str.get ⟨i, h⟩
      if ch = 10 then
        wrapAux w str fuel (i + 1) (result ++ [line]) []
      else if ch = 32 then
        if w ≤ line.length + wordlen str (i + 1) then
          wrapAux w str fuel (i + 1) (result ++ [line]) []
        else
          wrapAux w str fuel (i + 1) result (line ++ [ch])
      else if w ≤ line.length then
        wrapAux w str fuel i (result ++ [line]) []
      else
        wrapAux w str fuel (i + 1) result (line ++ [ch])
    else
      some (result ++ [line])

/-- Embedding of `wrap` (main.c 1823-1855).  The fuel `2 * str.length + 1`
is shown sufficient whenever `1 ≤ w`. -/
def wrap (str : List Nat) (w : Nat) : Option (List (List Nat)) :=
  wrapAux w str (2 * str.length + 1) 0 [] []

/-- Modelled from the spec: the length of the next whitespace-delimited
word, i.e. the count of codepoints from `start` up to the first space or
line break.  This is what the spec's greedy word-wrap rule refers to; the
code's `wordlen` above differs from it. -/
def wordlenSpec (str : List Nat) (start : Nat) : Nat :=
  ((str.drop start).takeWhile (fun c => ¬ (c = 32 ∨ c = 10))).length

/-- Modelled from the spec: the wrap scanner exactly as the spec's rule (b)
words it, identical to `wrapAux` except that the space rule uses the true
next-word length `wordlenSpec`. -/
def wrapSpecAux (w : Nat) (str : List Nat) :
    Nat → Nat → List (List Nat) → List Nat → Option (List (List Nat))
  | 0, _, _, _ => none
  | fuel + 1, i, result, line =>
    if h : i < str.length then
      let ch := str.get ⟨i, h⟩
      if ch = 10 then
        wrapSpecAux w str fuel (i + 1) (result ++ [line]) []
      else if ch = 32 then
        if w ≤ line.length + wordlenSpec str (i + 1) then
          wrapSpecAux w str fuel (i + 1) (result ++ [line]) []
        else
          wrapSpecAux w str fuel (i + 1) result (line ++ [ch])
      else if w ≤ line.length then
        wrapSpecAux w str fuel i (result ++ [line]) []
      else
        wrapSpecAux w str fuel (i + 1) result (line ++ [ch])
    else
      some (result ++ [line])

def wrapSpec (str : List Nat) (w : Nat) : Option (List (List Nat)) :=
  wrapSpecAux w str (2 * str.length + 1) 0 [] []

/-! ## SQLite LIKE matching

`update_conversations_list` (main.c 2508-2579) filters display names with
`display_name like ?` where the bound pattern is the search text followed
by a single `%` (appended via `sqlite3_str_appendchar`).  SQLite's default
LIKE operator treats `%` as "any sequence", `_` as "any single character",
and compares the ASCII letters A-Z case-insensitively. -/

/-- ASCII case folding as performed by SQLite's default LIKE. -/
def foldChar (c : Char) : Char :=
  if 'A' ≤ c ∧ c ≤ 'Z' then Char.ofNat (c.toNat + 32) else c

/-- SQLite LIKE pattern matching (no ESCAPE clause), fuelled for structural
recursion; every step shrinks the pattern or the text, so fuel
`pat.length + txt.length + 1` (as passed by `likeMatch`) always suffices. -/
def likeMatchAux : Nat → List Char → List Char → Bool
  | 0, _, _ => false
  | _ + 1, [], t => t.isEmpty
  | fuel + 1, p :: ps, t =>
    if p = '%' then
      likeMatchAux fuel ps t ||
        (match t with
         | [] => false
         | _ :: ts => likeMatchAux fuel (p :: ps) ts)
    else
      match t with
      | [] => false
      | c :: ts => (p = '_' || foldChar p = foldChar c) && likeMatchAux fuel ps ts

def likeMatch (pat txt : List Char) : Bool :=
  likeMatchAux (pat.length + txt.length + 1) pat txt

/-- Case-insensitive "starts with" on character lists: the plain reading of
a LIKE pattern `s%` when `s` itself contains no wildcard. -/
def startsWithCI : List Char → List Char → Bool
  | [], _ => true
  | _ :: _, [] => false
  | p :: ps, c :: ts => foldChar p = foldChar c && startsWithCI ps ts

/-! ## Data model

The sqlite tables of `init_database` (main.c 2635-2675) become Lean lists.
Sqlite's dynamically typed `kvs.value` column becomes `SqlVal`.  Columns
`is_member`, `is_im`, `pending`, `acknowledged`, `did_fetch` are stored as
ints but every use in the program is an `= 1` comparison or a 0/1 write,
so `Bool` (with `false` covering both 0 and NULL) is an exact model. -/

inductive SqlVal where
  | i (n : Int)
  | s (t : String)
  | null
deriving DecidableEq, Repr

/-- Coercion performed by `sqlite3_column_int`.  The keys this program
reads as ints are only ever written as ints, so the text-parsing branch of
sqlite's coercion is modelled by its 0 fallback. -/
def SqlVal.toInt : SqlVal → Int
  | .i n => n
  | _ => 0

/-- Coercion performed by `sqlite3_column_text`: ints render as decimal
text, NULL is the C NULL pointer. -/
def SqlVal.toText : SqlVal → Option String
  | .i n => some (toString n)
  | .s t => some t
  | .null => none

def SQLITE_INSERT : Int := 18
def SQLITE_DELETE : Int := 9
def SQLITE_UPDATE : Int := 23

/-- Embedding of `struct state_update` (main.c 1389-1395): the change
record captured by `update_hook` for every row mutation. -/
structure StateUpdate where
  operation : Int
  database : String
  tablename : String
  rowid : Int
deriving DecidableEq, Repr

structure Conversation where
  id : String
  name : Option String
  is_member : Bool
  is_im : Bool
  user : Option String
  did_fetch : Bool
deriving DecidableEq, Repr

structure User where
  id : String
  name : Option String
deriving DecidableEq, Repr

structure Message where
  id : Nat
  conversation : Option String
  type : Option String
  user : Option String
  text : Option String
  ts : Option String
  pending : Bool
  acknowledged : Bool
deriving DecidableEq, Repr

/-- Row of the `conversation_list` view-model table (columns `id`, `next`,
`prev`, `idx`, `display_name`). -/
structure CLEntry where
  id : String
  next : Option String
  prev : Option String
  idx : Nat
  display_name : Option String
deriving DecidableEq, Repr

/-- Outbound websocket frame produced by `send_pending_messages`'s
`json_object('id', id, 'channel', conversation, 'type', 'message',
'text', text)`; the constant `type` field is left implicit. -/
structure Payload where
  id : Nat
  channel : Option String
  text : Option String
deriving DecidableEq, Repr

/-- The whole program state: the sqlite tables plus the in-memory change
queue, the `ws_connection` global (as a Bool: connection present or not),
the frames sent over it, the HTTP requests issued, and the wall clock read
by `send_message`.  Rows of `kvs` and `conversation_list` carry their
sqlite rowids because `update_hook` records rowids and
`get_key_value_key_by_rowid` dereferences the `kvs` ones; `conversation`
rowids are modelled by list position (the program never dereferences
them) and `message` rowids equal the `id` primary key. -/
structure Sys where
  kvs : List (Nat × String × SqlVal) := []
  nextKvsRowid : Nat := 1
  conversations : List Conversation := []
  users : List User := []
  conversation_list : List (Nat × CLEntry) := []
  nextClRowid : Nat := 1
  messages : List Message := []
  nextMessageId : Nat := 1
  queue : List StateUpdate := []
  ws : Bool := false
  sent : List Payload := []
  httpRequests : List String := []
  now : Int := 0
deriving DecidableEq, Repr

/-! ## Key-value store primitives (main.c 1478-1566)

Every row mutation appends a change record to the queue, exactly as the
installed `update_hook` (main.c 2452-2462) does: sqlite invokes the hook
synchronously on each inserted/updated/deleted row. -/

def kvFind (s : Sys) (key : String) : Option (Nat × String × SqlVal) :=
  s.kvs.find? (fun r => r.2.1 == key)

/-- The upsert `insert into kvs ... on conflict (key) do update` shared by
`set_key_value_int` and `set_key_value_string`: an existing key fires a
SQLITE_UPDATE hook with the existing rowid, a fresh key a SQLITE_INSERT
with the new rowid. -/
def set_key_value (s : Sys) (key : String) (v : SqlVal) : Sys :=
  match kvFind s key with
  | some r =>
    { s with kvs := s.kvs.map (fun q => if q.2.1 = key then (q.1, key, v) else q),
             queue := s.queue ++ [⟨SQLITE_UPDATE, "main", "kvs", (r.1 : Int)⟩] }
  | none =>
    { s with kvs := s.kvs ++ [(s.nextKvsRowid, key, v)],
             nextKvsRowid := s.nextKvsRowid + 1,
             queue := s.queue ++ [⟨SQLITE_INSERT, "main", "kvs", (s.nextKvsRowid : Int)⟩] }

def set_key_value_int (s : Sys) (key : String) (n : Int) : Sys :=
  set_key_value s key (.i n)

/-- `set_key_value_string`; a NULL `char*` value binds SQL NULL. -/
def set_key_value_string (s : Sys) (key : String) (v : Option String) : Sys :=
  set_key_value s key (match v with | some t => .s t | none => .null)

def get_key_value_int (s : Sys) (key : String) (dflt : Int) : Int :=
  match kvFind s key with
  | some r => r.2.2.toInt
  | none => dflt

def get_key_value_string (s : Sys) (key : String) (dflt : Option String) : Option String :=
  match kvFind s key with
  | some r => r.2.2.toText
  | none => dflt

def get_key_value_key_by_rowid (s : Sys) (rid : Int) : Option String :=
  (s.kvs.find? (fun r => (r.1 : Int) == rid)).map (fun r => r.2.1)

def mode_normal : Int := 0
def mode_insert : Int := 1
def mode_search : Int := 2

def get_current_mode (s : Sys) : Int :=
  get_key_value_int s "mode" 0

def get_current_user_id (s : Sys) : Option String :=
  get_key_value_string s "current_user_id" none

def get_selected_conversation (s : Sys) : Option String :=
  get_key_value_string s "selected_conversation" none

/-- `get_input_buffer` reads the buffer key with default `""`; buffer
values are only ever written as text, so the stored value is never NULL
and the `to_utf8_list`/`to_char_array` round trip is the identity. -/
def get_input_buffer_str (s : Sys) (bufferKey : String) : String :=
  (get_key_value_string s bufferKey (some "")).getD ""

/-! ## Conversation-list rebuild (main.c 2506-2579) -/

/-- The `case when is_im = 1 then u.name else c.name end` of the rebuild
query, after the `left outer join user u on u.id = c.user`. -/
def display_name (users : List User) (c : Conversation) : Option String :=
  if c.is_im then
    c.user.bind (fun uid => (users.find? (fun u => u.id == uid)).bind (fun u => u.name))
  else c.name

/-- Ordering used by `order by display_name`: sqlite sorts NULLs first and
text by codepoint order (BINARY collation on UTF-8 bytes). -/
def odle : Option String → Option String → Bool
  | none, _ => true
  | some _, none => false
  | some a, some b => decide (a ≤ b)

/-- Rows of the `tmp` CTE restricted by `is_member = 1 or is_im = 1`,
paired as (id, display_name). -/
def clRows (users : List User) (convs : List Conversation) :
    List (String × Option String) :=
  (convs.filter (fun c => c.is_member || c.is_im)).map
    (fun c => (c.id, display_name users c))

/-- Computes `lead(id, 1) over win`, `lag(id, 1) over win` and
`(row_number() over win) - 1` down an already window-ordered row list. -/
def mkEntriesAux : Nat → Option String → List (String × Option String) → List CLEntry
  | _, _, [] => []
  | i, prev, r :: rest =>
    ⟨r.1, rest.head?.map (fun q => q.1), prev, i, r.2⟩ :: mkEntriesAux (i + 1) (some r.1) rest

def mkEntries (l : List (String × Option String)) : List CLEntry :=
  mkEntriesAux 0 none l

/-- The `display_name like ?` test of the non-empty-search branch, with
pattern search-text plus a trailing `%`; a NULL display name never passes
LIKE. -/
def rowLike (search : String) (dn : Option String) : Bool :=
  match dn with
  | none => false
  | some d => likeMatch (search.data ++ ['%']) d.data

/-- The rebuilt contents of `conversation_list`: both SQL branches of
`update_conversations_list` differ only in the `display_name like ?`
filter, applied when the search buffer is non-empty. -/
def rebuildEntries (users : List User) (convs : List Conversation)
    (search : String) : List CLEntry :=
  let rows := clRows users convs
  let filtered :=
    if search = "" then rows
    else rows.filter (fun r => rowLike search r.2)
  mkEntries (List.insertionSort (fun a b => odle a.2 b.2 = true) filtered)

/-- The non-empty-search row filter phrased on a conversation: display
name non-NULL and LIKE-matching the search text plus a trailing `%`. -/
def likeFilter (users : List User) (search : String) (c : Conversation) : Bool :=
  rowLike search (display_name users c)

/-! ## The four reactions (state listeners) -/

/-- The `conversation_list` table contents without the modelled rowids. -/
def clEntries (s : Sys) : List CLEntry :=
  s.conversation_list.map (fun r => r.2)

/-- Guard of `update_conversations_list`: it proceeds exactly on
`conversation` records and on `kvs` records whose key resolves to
`search_input_buffer`. -/
def ucl_fires (s : Sys) (u : StateUpdate) : Bool :=
  (u.tablename == "conversation") ||
    ((u.tablename == "kvs") &&
      (get_key_value_key_by_rowid s u.rowid == some "search_input_buffer"))

/-- The `delete from conversation_list`: one SQLITE_DELETE hook record per
existing row (the update hook disables sqlite's truncate shortcut). -/
def clDeleteAll (s : Sys) : Sys :=
  { s with conversation_list := [],
           queue := s.queue ++ s.conversation_list.map
             (fun r => ⟨SQLITE_DELETE, "main", "conversation_list", (r.1 : Int)⟩) }

/-- Insertion of one rebuilt row into `conversation_list`: the row gets a
fresh rowid and the hook appends one SQLITE_INSERT record. -/
def insertClRow (s : Sys) (e : CLEntry) : Sys :=
  { s with conversation_list := s.conversation_list ++ [(s.nextClRowid, e)],
           nextClRowid := s.nextClRowid + 1,
           queue := s.queue ++
             [⟨SQLITE_INSERT, "main", "conversation_list", (s.nextClRowid : Int)⟩] }

/-- The `insert into conversation_list ... select ...`: one SQLITE_INSERT
hook record per inserted row. -/
def insertClRows (s : Sys) (es : List CLEntry) : Sys :=
  es.foldl insertClRow s

/-- Embedding of the reaction `update_conversations_list`
(main.c 2508-2579). -/
def update_conversations_list (s : Sys) (u : StateUpdate) : Sys :=
  if ucl_fires s u then
    insertClRows (clDeleteAll s)
      (rebuildEntries s.users s.conversations (get_input_buffer_str s "search_input_buffer"))
  else s

def slack_conversation_history_url_base : String :=
  "https://slack.com/api/conversations.history?channel="

/-- The `update conversation set did_fetch = ? where id = ?`: the hook
fires per matched row, rowid modelled by list position. -/
def set_conversation_did_fetch (s : Sys) (cid : String) : Sys :=
  { s with conversations := s.conversations.map
             (fun c => if c.id = cid then { c with did_fetch := true } else c),
           queue := s.queue ++ (s.conversations.enum.filter (fun p => p.2.id == cid)).map
             (fun p => ⟨SQLITE_UPDATE, "main", "conversation", (p.1 : Int)⟩) }

/-- Embedding of the reaction `fetch_selected_conversation`
(main.c 2581-2600).  `get_conversation_did_fetch` (main.c 1704-1716) runs
`select did_fetch from conversation where id = ?` under
`sqlite_check_ex(db, sqlite3_step(stmt), SQLITE_ROW)`: when the selected
id matches no conversation row (including a NULL selection, which matches
nothing) the step yields SQLITE_DONE and the macro raises SIGTERM,
modelled as `Except.error`. -/
def fetch_selected_conversation (s : Sys) (u : StateUpdate) : Except String Sys :=
  if u.tablename ≠ "kvs" then .ok s
  else
    match get_key_value_key_by_rowid s u.rowid with
    | none => .ok s
    | some k =>
      if k ≠ "selected_conversation" then .ok s
      else
        match get_selected_conversation s with
        | none => .error "get_conversation_did_fetch: SQLITE_DONE where SQLITE_ROW expected"
        | some cid =>
          match s.conversations.find? (fun c => c.id == cid) with
          | none => .error "get_conversation_did_fetch: SQLITE_DONE where SQLITE_ROW expected"
          | some c =>
            if c.did_fetch then .ok s
            else .ok (set_conversation_did_fetch
              { s with httpRequests :=
                  s.httpRequests ++ [slack_conversation_history_url_base ++ cid] } cid)

/-- Embedding of the reaction `send_pending_messages` (main.c 2085-2117):
on a Message insert with a live socket, send a frame per `pending = 1` row
and then clear `pending` for all of them (the clearing update fires one
hook record per cleared row, rowid = message id). -/
def send_pending_messages (s : Sys) (u : StateUpdate) : Sys :=
  if ¬ s.ws then s
  else if u.tablename ≠ "message" then s
  else if u.operation ≠ SQLITE_INSERT then s
  else
    { s with sent := s.sent ++ (s.messages.filter (fun m => m.pending)).map
               (fun m => Payload.mk m.id m.conversation m.text),
             messages := s.messages.map
               (fun m => if m.pending then { m with pending := false } else m),
             queue := s.queue ++ (s.messages.filter (fun m => m.pending)).map
               (fun m => ⟨SQLITE_UPDATE, "main", "message", (m.id : Int)⟩) }

/-- The `set_input_cursor_pos` write path (main.c 1791-1801) lifted to the
store: rejects negative positions and positions beyond the buffer's
codepoint length, otherwise stores the cursor key. -/
def set_input_cursor_pos_sys (s : Sys) (bufferKey cursorKey : String) (n : Int) : Sys :=
  if n < 0 then s
  else if ((get_input_buffer_str s bufferKey).length : Int) < n then s
  else set_key_value_int s cursorKey n

/-- Embedding of the reaction `reset_search` (main.c 2602-2618): on a kvs
change whose key is `mode`, when the current mode equals `mode_search` it
writes an empty search buffer and cursor 0; otherwise it does nothing. -/
def reset_search (s : Sys) (u : StateUpdate) : Sys :=
  if u.tablename ≠ "kvs" then s
  else
    match get_key_value_key_by_rowid s u.rowid with
    | none => s
    | some k =>
      if k ≠ "mode" then s
      else if get_current_mode s = mode_search then
        set_input_cursor_pos_sys
          (set_key_value_string s "search_input_buffer" (some ""))
          "search_input_buffer" "search_input_cursor_pos" 0
      else s

/-! ## Dispatch loop (main.c 2620-2633) -/

/-- The four listeners in their registration order (main.c 2694-2697),
applied to one change record. -/
def run_state_listeners (s : Sys) (u : StateUpdate) : Except String Sys :=
  match fetch_selected_conversation s u with
  | .error e => .error e
  | .ok s1 => .ok (reset_search (update_conversations_list (send_pending_messages s1 u) u) u)

/-- Embedding of `process_state_update_queue`: repeatedly extract the
oldest queued record and run every listener on it, until the queue is
empty.  Listeners append new records to the same queue, so the loop also
consumes records enqueued during the drain; the fuel models the fact that
the C loop need not terminate, and the result carries the list of records
actually processed (the C function returns whether it is non-empty). -/
def process_state_update_queue : Nat → Sys → Except String (Sys × List StateUpdate)
  | 0, _ => .error "out of fuel"
  | fuel + 1, s =>
    match s.queue with
    | [] => .ok (s, [])
    | u :: rest =>
      match run_state_listeners { s with queue := rest } u with
      | .error e => .error e
      | .ok s1 =>
        match process_state_update_queue fuel s1 with
        | .error e => .error e
        | .ok (s2, us) => .ok (s2, u :: us)

/-- The records processed by one drain, `none` on abort or fuel
exhaustion. -/
def drained_records (fuel : Nat) (s : Sys) : Option (List StateUpdate) :=
  match process_state_update_queue fuel s with
  | .ok (_, us) => some us
  | .error _ => none

/-! ## Sending (main.c 2119-2157) -/

/-- Embedding of `send_message`: with no live socket or no stored current
user id it returns false without touching the store; otherwise it inserts
one Message row with `pending = 1, acknowledged = 0`, text from the
message input buffer, conversation from the current selection and `ts`
from the wall clock, and returns true. -/
def send_message (s : Sys) : Bool × Sys :=
  match s.ws, get_current_user_id s with
  | true, some uid =>
    let m : Message :=
      { id := s.nextMessageId,
        conversation := get_selected_conversation s,
        type := some "message",
        user := some uid,
        text := some (get_input_buffer_str s "message_input_buffer"),
        ts := some (toString s.now),
        pending := true,
        acknowledged := false }
    (true, { s with messages := s.messages ++ [m],
                    nextMessageId := s.nextMessageId + 1,
                    queue := s.queue ++ [⟨SQLITE_INSERT, "main", "message", (m.id : Int)⟩] })
  | _, _ => (false, s)

/-! ## Inbound websocket frames (main.c 2320-2406) -/

/-- One parsed inbound frame as `handle_ws` reads it: `wtype` and the
payload fields are `json_extract` results (NULL when absent), `reply_to`
is read with `sqlite3_column_int` so an absent field reads as 0, and `ok`
records whether `json_extract(c, '$.ok')` equals 1 (JSON true). -/
structure WsFrame where
  wtype : Option String
  reply_to : Int
  ok : Bool
  ts : Option String
  text : Option String
  channel : Option String
  user : Option String
deriving DecidableEq, Repr

/-- Embedding of `handle_ws_reply` (main.c 2350-2366): `update message set
ts = ..., text = ..., acknowledged = 1 where id = reply_to and ok == 1`. -/
def handle_ws_reply (f : WsFrame) (msgs : List Message) : List Message :=
  msgs.map (fun m =>
    if f.ok && ((m.id : Int) == f.reply_to) then
      { m with ts := f.ts, text := f.text, acknowledged := true }
    else m)

/-- Embedding of `handle_ws_message` (main.c 2320-2337): insert one
Message row from the payload, `pending`/`acknowledged` at their column
defaults 0/1, id from the autoincrement counter. -/
def handle_ws_message (f : WsFrame) (nextId : Nat) (msgs : List Message) : List Message :=
  msgs ++ [{ id := nextId, conversation := f.channel, type := f.wtype,
             user := f.user, text := f.text, ts := f.ts,
             pending := false, acknowledged := true }]

/-- The frame classification of `handle_ws` (main.c 2368-2406), restricted
to its effect on the `message` table: `reply_to > 0` routes to
`handle_ws_reply`; otherwise a `hello` frame only records the socket and
issues the directory fetches, a `message` frame inserts a row, and
anything else is logged and dropped. -/
def handle_ws (f : WsFrame) (nextId : Nat) (msgs : List Message) : List Message :=
  if 0 < f.reply_to then handle_ws_reply f msgs
  else
    match f.wtype with
    | some t =>
      if t = "hello" then msgs
      else if t = "message" then handle_ws_message f nextId msgs
      else msgs
    | none => msgs

/-! ## Input editing (main.c 2061-2203)

`update_input_buffer` operates on one `struct input_buffer`'s pair of kvs
slots (its text and its cursor); `EditorState` is that pair.  The C
cursor slot holds an int, the buffer a list of codepoints.  Enter is
excluded: it invokes the mode-specific callback rather than editing. -/

structure EditorState where
  buffer : List Nat
  cursor : Int
deriving DecidableEq, Repr

inductive EditKey where
  | arrowLeft
  | arrowRight
  | home
  | keyEnd
  | backspace
  | del
  | printable (ch : Nat)
deriving DecidableEq, Repr

/-- Embedding of `set_input_cursor_pos` (main.c 1791-1801): out-of-range
positions are rejected, the store is left unchanged. -/
def set_input_cursor_pos (n : Int) (e : EditorState) : EditorState :=
  if n < 0 then e
  else if (e.buffer.length : Int) < n then e
  else { e with cursor := n }

/-- Embedding of `delete_input_buffer` (main.c 2061-2075): returns whether
a codepoint was removed at `pos`. -/
def delete_input_buffer (pos : Int) (e : EditorState) : Bool × EditorState :=
  if (e.buffer.length : Int) ≤ pos then (false, e)
  else if pos < 0 then (false, e)
  else (true, { e with buffer := e.buffer.eraseIdx pos.toNat })

/-- Embedding of `insert_input_buffer` (main.c 2077-2083): simclist's
`list_insert_at` rejects an out-of-range position, leaving the buffer
unchanged (`List.insertIdx` is likewise the identity past the end). -/
def insert_input_buffer (ch : Nat) (e : EditorState) : EditorState :=
  if e.cursor < 0 then e
  else { e with buffer := List.insertIdx e.cursor.toNat ch e.buffer }

/-- Embedding of the editing cases of `update_input_buffer`
(main.c 2166-2203).  `pos` is the cursor read once at entry; the stale
buffer read at entry is used by the Delete case's cursor test, exactly as
in the C code. -/
def update_input_buffer (k : EditKey) (e : EditorState) : EditorState :=
  let pos := e.cursor
  match k with
  | .arrowLeft => set_input_cursor_pos (pos - 1) e
  | .arrowRight => set_input_cursor_pos (pos + 1) e
  | .home => set_input_cursor_pos 0 e
  | .keyEnd => set_input_cursor_pos (e.buffer.length : Int) e
  | .backspace =>
    let r := delete_input_buffer (pos - 1) e
    if r.1 then set_input_cursor_pos (pos - 1) r.2 else r.2
  | .del =>
    let r := delete_input_buffer pos e
    if (e.buffer.length : Int) < pos then set_input_cursor_pos (pos - 1) r.2 else r.2
  | .printable ch =>
    set_input_cursor_pos (pos + 1) (insert_input_buffer ch e)

/-! ## Concrete states used by witnesses and counterexamples -/

/-- The user just pressed `/` in normal mode: `set_current_mode(2)` wrote
the kvs row `mode` (rowid 1) and the hook queued that record. -/
def c1state : Sys :=
  { kvs := [(1, "mode", SqlVal.i 2)]
    nextKvsRowid := 2
    queue := [⟨SQLITE_UPDATE, "main", "kvs", 1⟩] }

/-- Result state of draining `c1state`: `reset_search` wrote an empty
search buffer (new kvs rowid 2) and cursor 0 (rowid 3), and those two
cascaded records were processed by the same drain. -/
def c1final : Sys :=
  { kvs := [(1, "mode", SqlVal.i 2), (2, "search_input_buffer", SqlVal.s ""),
            (3, "search_input_cursor_pos", SqlVal.i 0)]
    nextKvsRowid := 4 }

/-- A state with a composed message, a user id and a selection but no live
socket. -/
def c2state : Sys :=
  { kvs := [(1, "current_user_id", SqlVal.s "U1"),
            (2, "selected_conversation", SqlVal.s "C1"),
            (3, "message_input_buffer", SqlVal.s "hi")]
    nextKvsRowid := 4 }

/-- Same as `c2state` with a live socket. -/
def c2wsState : Sys :=
  { kvs := [(1, "current_user_id", SqlVal.s "U1"),
            (2, "selected_conversation", SqlVal.s "C1"),
            (3, "message_input_buffer", SqlVal.s "hi")]
    nextKvsRowid := 4
    ws := true }

/-- A reply frame `{"ok":true,"reply_to":7,"ts":"123.4","text":"hi"}`. -/
def c3frame : WsFrame :=
  { wtype := none, reply_to := 7, ok := true, ts := some "123.4",
    text := some "hi", channel := none, user := none }

def c3msg1 : Message :=
  { id := 7, conversation := some "C1", type := some "message",
    user := some "U1", text := some "old", ts := some "111.1",
    pending := false, acknowledged := false }

def c3msg2 : Message :=
  { id := 8, conversation := some "C1", type := some "message",
    user := some "U1", text := some "other", ts := some "222.2",
    pending := false, acknowledged := true }

/-- Directory state with two member channels, one non-member channel and
one direct-message conversation whose peer is user `bob`. -/
def c4state : Sys :=
  { users := [⟨"U7", some "bob"⟩]
    conversations := [⟨"C2", some "zebra", true, false, none, false⟩,
                      ⟨"C3", some "alpha", false, false, none, false⟩,
                      ⟨"D1", none, false, true, some "U7", false⟩,
                      ⟨"C4", some "mid", true, false, none, false⟩] }

def c4rec : StateUpdate := ⟨SQLITE_INSERT, "main", "conversation", 1⟩

/-- One member channel named "abc" while the search buffer holds "b". -/
def c5state : Sys :=
  { kvs := [(1, "search_input_buffer", SqlVal.s "b")]
    nextKvsRowid := 2
    conversations := [⟨"C1", some "abc", true, false, none, false⟩] }

def c5rec : StateUpdate := ⟨SQLITE_UPDATE, "main", "kvs", 1⟩

/-- The mode key was just set to `mode_search` while the search buffer
holds "x" with cursor 1. -/
def c6state : Sys :=
  { kvs := [(1, "mode", SqlVal.i 2), (2, "search_input_buffer", SqlVal.s "x"),
            (3, "search_input_cursor_pos", SqlVal.i 1)]
    nextKvsRowid := 4 }

def c6rec : StateUpdate := ⟨SQLITE_UPDATE, "main", "kvs", 1⟩

/-- The selected-conversation key holds an id with no conversation row: a
dangling selection, as left by a directory refresh. -/
def c9state : Sys :=
  { kvs := [(1, "selected_conversation", SqlVal.s "GONE")]
    nextKvsRowid := 2 }

def c9rec : StateUpdate := ⟨SQLITE_UPDATE, "main", "kvs", 1⟩

/-- An editor buffer "ab" with the cursor between the two codepoints. -/
def c10state : EditorState := { buffer := [97, 98], cursor := 1 }

/-! ## Lemmas about the layout engine -/

/-- Every `wrapAux` step strictly decreases `2 * (input left) + |line|` as
long as `1 ≤ w`, so the fuel passed by `wrap` never runs out. -/
theorem wrapAux_total (w : Nat) (hw : 1 ≤ w) (str : List Nat) :
    ∀ fuel i res line, 2 * (str.length - i) + line.length < fuel →
      ∃ r, wrapAux w str fuel i res line = some r := by
  intro fuel
  induction fuel with
  | zero =>
    intro i res line hm
    omega
  | succ n ih =>
    intro i res line hm
    by_cases h : i < str.length
    · simp only [wrapAux]
      rw [dif_pos h]
      by_cases h10 : str.get ⟨i, h⟩ = 10
      · rw [if_pos h10]
        exact ih (i + 1) (res ++ [line]) [] (by simp; omega)
      · rw [if_neg h10]
        by_cases h32 : str.get ⟨i, h⟩ = 32
        · rw [if_pos h32]
          by_cases hbrk : w ≤ line.length + wordlen str (i + 1)
          · rw [if_pos hbrk]
            exact ih (i + 1) (res ++ [line]) [] (by simp; omega)
          · rw [if_neg hbrk]
            exact ih (i + 1) res (line ++ [str.get ⟨i, h⟩]) (by simp; omega)
        · rw [if_neg h32]
          by_cases hfull : w ≤ line.length
          · rw [if_pos hfull]
            exact ih i (res ++ [line]) [] (by simp; omega)
          · rw [if_neg hfull]
            exact ih (i + 1) res (line ++ [str.get ⟨i, h⟩]) (by simp; omega)
    · refine ⟨res ++ [line], ?_⟩
      simp only [wrapAux]
      rw [dif_neg h]

/-- Auxiliary bound for emitting the current line into the result list. -/
theorem lines_le_emit {w : Nat} {res : List (List Nat)} {line : List Nat}
    (hres : ∀ l ∈ res, l.length ≤ w) (hline : line.length ≤ w) :
    ∀ l ∈ res ++ [line], l.length ≤ w := by
  intro l hl
  rcases List.mem_append.mp hl with hl | hl
  · exact hres l hl
  · simp only [List.mem_singleton] at hl
    subst hl
    exact hline

/-- Invariant of the wrap loop: lines are emitted only at length at most
`w` (the two append branches are guarded by strict bounds, the force-break
branch empties the line). -/
theorem wrapAux_lines_le (w : Nat) (str : List Nat) :
    ∀ fuel i res line r, wrapAux w str fuel i res line = some r →
      (∀ l ∈ res, l.length ≤ w) → line.length ≤ w →
      ∀ l ∈ r, l.length ≤ w := by
  intro fuel
  induction fuel with
  | zero =>
    intro i res line r hr
    simp [wrapAux] at hr
  | succ n ih =>
    intro i res line r hr hres hline
    simp only [wrapAux] at hr
    by_cases h : i < str.length
    · rw [dif_pos h] at hr
      by_cases h10 : str.get ⟨i, h⟩ = 10
      · rw [if_pos h10] at hr
        exact ih _ _ _ r hr (lines_le_emit hres hline) (by simp)
      · rw [if_neg h10] at hr
        by_cases h32 : str.get ⟨i, h⟩ = 32
        · rw [if_pos h32] at hr
          by_cases hbrk : w ≤ line.length + wordlen str (i + 1)
          · rw [if_pos hbrk] at hr
            exact ih _ _ _ r hr (lines_le_emit hres hline) (by simp)
          · rw [if_neg hbrk] at hr
            refine ih _ _ _ r hr hres ?_
            simp only [List.length_append, List.length_cons, List.length_nil]
            omega
        · rw [if_neg h32] at hr
          by_cases hfull : w ≤ line.length
          · rw [if_pos hfull] at hr
            exact ih _ _ _ r hr (lines_le_emit hres hline) (by simp)
          · rw [if_neg hfull] at hr
            refine ih _ _ _ r hr hres ?_
            simp only [List.length_append, List.length_cons, List.length_nil]
            omega
    · rw [dif_neg h] at hr
      cases hr
      exact lines_le_emit hres hline

/-- C7 counterexample.  On input "x abc" at width 5 the code breaks at the
space and returns ["x", "abc"], although the current line plus the true
next whitespace-delimited word is 1 + 3 = 4 < 5, so the spec's greedy rule
(embodied by `wrapSpec`) keeps "x abc" on one line: the claimed
"if and only if" condition for a space ending the line is false.  The
cause is `wordlen`, which skips every other codepoint and reports 4. -/
theorem c7_break_despite_fitting_word :
    wrap [120, 32, 97, 98, 99] 5 = some [[120], [97, 98, 99]] ∧
    wrapSpec [120, 32, 97, 98, 99] 5 = some [[120, 32, 97, 98, 99]] ∧
    wordlenSpec [120, 32, 97, 98, 99] 2 = 3 ∧
    [120].length + wordlenSpec [120, 32, 97, 98, 99] 2 < 5 ∧
    wordlen [120, 32, 97, 98, 99] 2 = 4 := by
  decide

/-- C7 amended: while `wrap` scans left to right, a space codepoint ends
the current line (the space being consumed and not emitted, the line
emitted before the following word) if and only if the current line length
plus the value of the code's own word scanner `wordlen` — which examines
only every other codepoint and can exceed the true length of the next
whitespace-delimited word — reaches or exceeds the width; otherwise the
space is appended to the current line. -/
theorem c7_space_step (w : Nat) (str : List Nat) (fuel i : Nat)
    (res : List (List Nat)) (line : List Nat)
    (h : i < str.length) (hch : str.get ⟨i, h⟩ = 32) :
    wrapAux w str (fuel + 1) i res line =
      if w ≤ line.length + wordlen str (i + 1) then
        wrapAux w str fuel (i + 1) (res ++ [line]) []
      else
        wrapAux w str fuel (i + 1) res (line ++ [32]) := by
  simp only [wrapAux]
  rw [dif_pos h]
  rw [hch]
  norm_num

/-- C7 witness: the amended step rule applied at the concrete input of the
counterexample. -/
theorem c7_space_step_witness :
    wrapAux 5 [120, 32, 97, 98, 99] 3 1 [] [120] =
      (if 5 ≤ [120].length + wordlen [120, 32, 97, 98, 99] 2 then
        wrapAux 5 [120, 32, 97, 98, 99] 2 2 ([] ++ [[120]]) []
      else
        wrapAux 5 [120, 32, 97, 98, 99] 2 2 [] ([120] ++ [32])) :=
  c7_space_step 5 [120, 32, 97, 98, 99] 2 1 [] [120] (by decide) (by decide)

/-- C8: for every non-empty codepoint sequence and width at least 1,
`wrap` returns a result (the fuel suffices) and every returned line has
length at most the width. -/
theorem c8_wrap_lines_within_width (str : List Nat) (w : Nat)
    (hne : str ≠ []) (hw : 1 ≤ w) :
    ∃ r, wrap str w = some r ∧ ∀ l ∈ r, l.length ≤ w := by
  obtain ⟨r, hr⟩ := wrapAux_total w hw str (2 * str.length + 1) 0 [] []
    (by simp)
  exact ⟨r, hr, wrapAux_lines_le w str _ 0 [] [] r hr (by simp) (by simp)⟩

/-- C8 witness: the theorem applied to the codepoints of "hello" at
width 3. -/
theorem c8_wrap_lines_within_width_witness :
    ([104, 101, 108, 108, 111] : List Nat) ≠ [] ∧ (1 : Nat) ≤ 3 ∧
    ∃ r, wrap [104, 101, 108, 108, 111] 3 = some r ∧ ∀ l ∈ r, l.length ≤ 3 :=
  ⟨by decide, by decide,
    c8_wrap_lines_within_width [104, 101, 108, 108, 111] 3 (by decide) (by decide)⟩
/-! ## Lemmas about the key-value store -/

theorem find_map_upsert (l : List (Nat × String × SqlVal)) (k : String) (v : SqlVal) :
    ((l.map (fun q => if q.2.1 = k then (q.1, k, v) else q)).find?
      (fun r => r.2.1 == k)) =
      (l.find? (fun r => r.2.1 == k)).map (fun r => (r.1, k, v)) := by
  induction l with
  | nil => rfl
  | cons q l ih =>
    by_cases hq : q.2.1 = k
    · simp [List.find?_cons, hq]
    · simp [List.find?_cons, hq, ih]

theorem find_map_upsert_ne (l : List (Nat × String × SqlVal)) (k k' : String)
    (v : SqlVal) (hne : k' ≠ k) :
    ((l.map (fun q => if q.2.1 = k then (q.1, k, v) else q)).find?
      (fun r => r.2.1 == k')) =
      l.find? (fun r => r.2.1 == k') := by
  induction l with
  | nil => rfl
  | cons q l ih =>
    by_cases hq : q.2.1 = k
    · have hkk : ¬ (k == k') = true := by simp; exact fun h => hne h.symm
      simp [List.find?_cons, hq, hkk, ih]
    · simp only [List.map_cons, if_neg hq]
      by_cases hq' : q.2.1 = k'
      · simp [List.find?_cons, hq']
      · simp [List.find?_cons, hq', ih]

theorem kvFind_set_same (s : Sys) (k : String) (v : SqlVal) :
    ∃ rid, kvFind (set_key_value s k v) k = some (rid, k, v) := by
  unfold set_key_value
  cases hf : kvFind s k with
  | some r =>
    refine ⟨r.1, ?_⟩
    unfold kvFind at hf ⊢
    simp only []
    rw [find_map_upsert, hf]
    rfl
  | none =>
    refine ⟨s.nextKvsRowid, ?_⟩
    unfold kvFind at hf ⊢
    simp only []
    rw [List.find?_append, hf]
    simp [List.find?_cons]

theorem kvFind_set_ne (s : Sys) (k k' : String) (v : SqlVal) (hne : k' ≠ k) :
    kvFind (set_key_value s k v) k' = kvFind s k' := by
  unfold set_key_value
  cases hf : kvFind s k with
  | some r =>
    unfold kvFind
    simp only []
    rw [find_map_upsert_ne _ _ _ _ hne]
  | none =>
    unfold kvFind
    simp only []
    rw [List.find?_append]
    have : ¬ (k == k') = true := by simp; exact fun h => hne h.symm
    simp [List.find?_cons, this]

theorem get_string_set_same (s : Sys) (k : String) (v : SqlVal) (d : Option String) :
    get_key_value_string (set_key_value s k v) k d = v.toText := by
  obtain ⟨rid, h⟩ := kvFind_set_same s k v
  unfold get_key_value_string
  rw [h]

theorem get_int_set_same (s : Sys) (k : String) (v : SqlVal) (d : Int) :
    get_key_value_int (set_key_value s k v) k d = v.toInt := by
  obtain ⟨rid, h⟩ := kvFind_set_same s k v
  unfold get_key_value_int
  rw [h]

theorem get_string_set_ne (s : Sys) (k k' : String) (v : SqlVal) (d : Option String)
    (hne : k' ≠ k) :
    get_key_value_string (set_key_value s k v) k' d = get_key_value_string s k' d := by
  unfold get_key_value_string
  rw [kvFind_set_ne s k k' v hne]

theorem get_int_set_ne (s : Sys) (k k' : String) (v : SqlVal) (d : Int)
    (hne : k' ≠ k) :
    get_key_value_int (set_key_value s k v) k' d = get_key_value_int s k' d := by
  unfold get_key_value_int
  rw [kvFind_set_ne s k k' v hne]

/-! ## Claims C2, C6, C9 -/

/-- C2 counterexample.  With a composed message, a stored user id and a
selection but no live socket, pressing Enter runs `send_message`, which
returns false and stores nothing: no Message row with `pending = 1` is
created, contradicting the claim that the message is stored as
`pending=1, acknowledged=0`. -/
theorem c2_no_socket_stores_nothing :
    c2state.ws = false ∧
    get_current_user_id c2state = some "U1" ∧
    get_input_buffer_str c2state "message_input_buffer" = "hi" ∧
    send_message c2state = (false, c2state) ∧
    (send_message c2state).2.messages = [] := by
  decide

/-- C2 amended: sending with no live socket (or no stored user id) is
rejected outright — `send_message` returns false and leaves the store
unchanged, no pending row is created.  When a socket is live and a user id
is stored, `send_message` inserts exactly one Message row with
`pending = 1, acknowledged = 0`, and the Message-insert-triggered
`send_pending_messages` transmits every `pending = 1` row over the socket
and clears `pending` for all of them (it does nothing without a live
socket). -/
theorem c2_send_paths :
    (∀ s : Sys, s.ws = false → send_message s = (false, s)) ∧
    (∀ s : Sys, get_current_user_id s = none → send_message s = (false, s)) ∧
    (∀ (s : Sys) (uid : String), s.ws = true → get_current_user_id s = some uid →
      (send_message s).1 = true ∧
      (send_message s).2.messages = s.messages ++
        [{ id := s.nextMessageId,
           conversation := get_selected_conversation s,
           type := some "message",
           user := some uid,
           text := some (get_input_buffer_str s "message_input_buffer"),
           ts := some (toString s.now),
           pending := true,
           acknowledged := false }]) ∧
    (∀ (s : Sys) (u : StateUpdate), s.ws = false → send_pending_messages s u = s) ∧
    (∀ (s : Sys) (u : StateUpdate), s.ws = true → u.tablename = "message" →
      u.operation = SQLITE_INSERT →
      (send_pending_messages s u).sent = s.sent ++
        (s.messages.filter (fun m => m.pending)).map
          (fun m => Payload.mk m.id m.conversation m.text) ∧
      (∀ m ∈ (send_pending_messages s u).messages, m.pending = false) ∧
      (send_pending_messages s u).messages.length = s.messages.length) := by
  refine ⟨?_, ?_, ?_, ?_, ?_⟩
  · intro s hws
    simp [send_message, hws]
  · intro s huid
    unfold send_message
    rw [huid]
    cases s.ws <;> rfl
  · intro s uid hws huid
    unfold send_message
    rw [hws, huid]
    exact ⟨rfl, rfl⟩
  · intro s u hws
    simp [send_pending_messages, hws]
  · intro s u hws ht hop
    have hred : send_pending_messages s u =
        { s with sent := s.sent ++ (s.messages.filter (fun m => m.pending)).map
                   (fun m => Payload.mk m.id m.conversation m.text),
                 messages := s.messages.map
                   (fun m => if m.pending then { m with pending := false } else m),
                 queue := s.queue ++ (s.messages.filter (fun m => m.pending)).map
                   (fun m => ⟨SQLITE_UPDATE, "main", "message", (m.id : Int)⟩) } := by
      simp [send_pending_messages, hws, ht, hop]
    rw [hred]
    refine ⟨rfl, ?_, by simp⟩
    intro m hm
    simp only [List.mem_map] at hm
    obtain ⟨m0, hm0, rfl⟩ := hm
    cases hp : m0.pending
    · simp [hp]
    · simp [hp]

/-- C2 witness: the rejected path at `c2state` (no socket) and the
accepting path at `c2wsState` (live socket). -/
theorem c2_send_paths_witness :
    send_message c2state = (false, c2state) ∧
    ((send_message c2wsState).1 = true ∧
      (send_message c2wsState).2.messages = c2wsState.messages ++
        [{ id := c2wsState.nextMessageId,
           conversation := get_selected_conversation c2wsState,
           type := some "message",
           user := some "U1",
           text := some (get_input_buffer_str c2wsState "message_input_buffer"),
           ts := some (toString c2wsState.now),
           pending := true,
           acknowledged := false }]) :=
  ⟨c2_send_paths.1 c2state (by decide),
   c2_send_paths.2.2.1 c2wsState "U1" (by decide) (by decide)⟩

/-- C6 counterexample.  On the kvs change record for the mode key with the
new mode equal to `mode_search`, the claim says `reset_search` changes
nothing; the code clears the search buffer (its condition is
`get_current_mode() == mode_search`, not `!=`). -/
theorem c6_clears_on_entering_search :
    get_current_mode c6state = mode_search ∧
    get_input_buffer_str c6state "search_input_buffer" = "x" ∧
    get_key_value_int c6state "search_input_cursor_pos" 0 = 1 ∧
    get_input_buffer_str (reset_search c6state c6rec) "search_input_buffer" = "" ∧
    get_key_value_int (reset_search c6state c6rec) "search_input_cursor_pos" 0 = 0 := by
  decide

/-- C6 amended: for every change record on the KeyValue table whose key is
the mode key, `reset_search` clears the search text buffer to empty and
its cursor to 0 exactly when the new mode IS `mode_search`; for a new mode
different from `mode_search`, and for all other change records, it changes
nothing. -/
theorem c6_reset_search_behavior :
    (∀ (s : Sys) (u : StateUpdate),
      u.tablename ≠ "kvs" ∨ get_key_value_key_by_rowid s u.rowid ≠ some "mode" →
        reset_search s u = s) ∧
    (∀ (s : Sys) (u : StateUpdate),
      u.tablename = "kvs" →
      get_key_value_key_by_rowid s u.rowid = some "mode" →
      get_current_mode s ≠ mode_search →
        reset_search s u = s) ∧
    (∀ (s : Sys) (u : StateUpdate),
      u.tablename = "kvs" →
      get_key_value_key_by_rowid s u.rowid = some "mode" →
      get_current_mode s = mode_search →
        get_input_buffer_str (reset_search s u) "search_input_buffer" = "" ∧
        get_key_value_int (reset_search s u) "search_input_cursor_pos" 0 = 0) := by
  refine ⟨?_, ?_, ?_⟩
  · intro s u h
    by_cases ht : u.tablename = "kvs"
    · rcases h with h | h
      · exact absurd ht h
      · cases hk : get_key_value_key_by_rowid s u.rowid with
        | none => simp [reset_search, ht, hk]
        | some k =>
          have hkm : k ≠ "mode" := fun hkk => h (hkk ▸ hk)
          simp [reset_search, ht, hk, hkm]
    · simp [reset_search, ht]
  · intro s u ht hk hm
    simp [reset_search, ht, hk, hm]
  · intro s u ht hk hm
    have hred : reset_search s u =
        set_input_cursor_pos_sys
          (set_key_value_string s "search_input_buffer" (some ""))
          "search_input_buffer" "search_input_cursor_pos" 0 := by
      simp [reset_search, ht, hk, hm]
    have h1 : get_input_buffer_str
        (set_key_value_string s "search_input_buffer" (some ""))
        "search_input_buffer" = "" := by
      unfold get_input_buffer_str set_key_value_string
      rw [get_string_set_same]
      rfl
    rw [hred]
    unfold set_input_cursor_pos_sys
    rw [h1]
    norm_num
    constructor
    · unfold get_input_buffer_str set_key_value_int
      rw [get_string_set_ne _ _ _ _ _ (by decide)]
      unfold set_key_value_string
      rw [get_string_set_same]
      rfl
    · unfold set_key_value_int
      rw [get_int_set_same]
      rfl

/-- C6 witness: the clearing branch of the amended behaviour applied at
the concrete state entering search mode. -/
theorem c6_reset_search_behavior_witness :
    get_input_buffer_str (reset_search c6state c6rec) "search_input_buffer" = "" ∧
    get_key_value_int (reset_search c6state c6rec) "search_input_cursor_pos" 0 = 0 :=
  c6_reset_search_behavior.2.2 c6state c6rec (by decide) (by decide) (by decide)

/-- C9: evaluation of `fetch_selected_conversation` at a state whose
selected-conversation key holds an id with no Conversation row.  The
reaction reaches the fatal storage-abort branch (SIGTERM through
`sqlite_check_ex`, modelled by `Except.error`) instead of tolerating the
dangling id as the claim requires. -/
theorem c9_dangling_selection_aborts :
    c9state.conversations.find? (fun c => c.id == "GONE") = none ∧
    get_selected_conversation c9state = some "GONE" ∧
    fetch_selected_conversation c9state c9rec =
      Except.error "get_conversation_did_fetch: SQLITE_DONE where SQLITE_ROW expected" :=
  ⟨rfl, rfl, rfl⟩

/-- C10: every editing key handled by `update_input_buffer` preserves the
cursor invariant `0 ≤ cursor ≤ buffer length`: out-of-range cursor writes
are rejected by `set_input_cursor_pos`, deletions and insertions adjust
the cursor consistently with the new length. -/
theorem c10_cursor_stays_in_range (k : EditKey) (e : EditorState)
    (h0 : 0 ≤ e.cursor) (h1 : e.cursor ≤ (e.buffer.length : Int)) :
    0 ≤ (update_input_buffer k e).cursor ∧
      (update_input_buffer k e).cursor ≤ ((update_input_buffer k e).buffer.length : Int) := by
  cases k with
  | arrowLeft =>
    simp only [update_input_buffer, set_input_cursor_pos]
    split_ifs <;> constructor <;> simp_all
  | arrowRight =>
    simp only [update_input_buffer, set_input_cursor_pos]
    split_ifs <;> constructor <;> simp_all
  | home =>
    simp only [update_input_buffer, set_input_cursor_pos]
    split_ifs <;> constructor <;> simp_all
  | keyEnd =>
    simp only [update_input_buffer, set_input_cursor_pos]
    split_ifs <;> constructor <;> simp_all
  | backspace =>
    by_cases hA : (e.buffer.length : Int) ≤ e.cursor - 1
    · simp only [update_input_buffer, delete_input_buffer, if_pos hA]
      exact ⟨h0, h1⟩
    · by_cases hB : e.cursor - 1 < 0
      · simp only [update_input_buffer, delete_input_buffer, if_neg hA, if_pos hB]
        exact ⟨h0, h1⟩
      · have hidx : (e.cursor - 1).toNat < e.buffer.length := by omega
        have hlen : (e.buffer.eraseIdx (e.cursor - 1).toNat).length =
            e.buffer.length - 1 := by
          rw [List.length_eraseIdx, if_pos hidx]
        simp only [update_input_buffer, delete_input_buffer, if_neg hA, if_neg hB,
          set_input_cursor_pos]
        simp only [if_true]
        split_ifs <;> constructor <;> simp_all <;> omega
  | del =>
    by_cases hA : (e.buffer.length : Int) ≤ e.cursor
    · have hs : ¬ (e.buffer.length : Int) < e.cursor := by omega
      simp only [update_input_buffer, delete_input_buffer, if_pos hA]
      simp only [if_neg hs]
      exact ⟨h0, h1⟩
    · have hidx : e.cursor.toNat < e.buffer.length := by omega
      have hlen : (e.buffer.eraseIdx e.cursor.toNat).length =
          e.buffer.length - 1 := by
        rw [List.length_eraseIdx, if_pos hidx]
      have hB : ¬ e.cursor < 0 := by omega
      have hs : ¬ (e.buffer.length : Int) < e.cursor := by omega
      simp only [update_input_buffer, delete_input_buffer, if_neg hA, if_neg hB]
      simp only [if_neg hs]
      constructor
      · exact h0
      · simp only [hlen]
        omega
  | printable ch =>
    have hB : ¬ e.cursor < 0 := by omega
    have hidx : e.cursor.toNat ≤ e.buffer.length := by omega
    have hlen : (List.insertIdx e.cursor.toNat ch e.buffer).length =
        e.buffer.length + 1 := List.length_insertIdx _ _ hidx
    simp only [update_input_buffer, insert_input_buffer, if_neg hB,
      set_input_cursor_pos]
    split_ifs <;> constructor <;> simp_all <;> omega

/-- C10 witness: the invariant applied at a concrete two-codepoint buffer
with the cursor in the middle, for a printable-key insertion. -/
theorem c10_cursor_stays_in_range_witness :
    0 ≤ (update_input_buffer (EditKey.printable 99) c10state).cursor ∧
      (update_input_buffer (EditKey.printable 99) c10state).cursor ≤
        (((update_input_buffer (EditKey.printable 99) c10state).buffer.length : Int)) :=
  c10_cursor_stays_in_range (EditKey.printable 99) c10state (by decide) (by decide)

/-- C3: for an inbound frame whose `reply_to` is positive, `handle_ws`
routes to `handle_ws_reply`; with `ok` true it rewrites exactly the
messages whose id equals `reply_to` — overwriting `ts` and `text` from the
payload and setting `acknowledged` — and leaves every other message
unchanged (ids are the integer primary key, so at most one row matches);
with `ok` false no message row changes at all. -/
theorem c3_reply_updates_exactly_target (f : WsFrame) (msgs : List Message)
    (nextId : Nat) (hpos : 0 < f.reply_to) :
    ((f.ok = true →
      (handle_ws f nextId msgs).length = msgs.length ∧
      ∀ (i : Nat) (m : Message), msgs[i]? = some m →
        (((m.id : Int) = f.reply_to →
          (handle_ws f nextId msgs)[i]? =
            some { m with ts := f.ts, text := f.text, acknowledged := true }) ∧
         ((m.id : Int) ≠ f.reply_to →
          (handle_ws f nextId msgs)[i]? = some m))) ∧
     (f.ok = false → handle_ws f nextId msgs = msgs)) := by
  have hw : handle_ws f nextId msgs = handle_ws_reply f msgs := by
    unfold handle_ws
    rw [if_pos hpos]
  constructor
  · intro hok
    constructor
    · rw [hw]
      exact List.length_map msgs _
    · intro i m hm
      constructor
      · intro hid
        rw [hw]
        unfold handle_ws_reply
        rw [List.getElem?_map, hm]
        simp [hok, hid]
      · intro hid
        rw [hw]
        unfold handle_ws_reply
        rw [List.getElem?_map, hm]
        simp [hok, hid]
  · intro hok
    rw [hw]
    unfold handle_ws_reply
    have hins : ∀ m : Message, (if f.ok && ((m.id : Int) == f.reply_to) then
        { m with ts := f.ts, text := f.text, acknowledged := true } else m) = m := by
      intro m
      rw [if_neg]
      simp [hok]
    simp only [hins]
    exact List.map_id msgs

/-- C3 witness: a reply frame with id 7 applied to a two-message table. -/
theorem c3_reply_witness :
    ((c3frame.ok = true →
      (handle_ws c3frame 9 [c3msg1, c3msg2]).length = [c3msg1, c3msg2].length ∧
      ∀ (i : Nat) (m : Message), [c3msg1, c3msg2][i]? = some m →
        (((m.id : Int) = c3frame.reply_to →
          (handle_ws c3frame 9 [c3msg1, c3msg2])[i]? =
            some { m with ts := c3frame.ts, text := c3frame.text, acknowledged := true }) ∧
         ((m.id : Int) ≠ c3frame.reply_to →
          (handle_ws c3frame 9 [c3msg1, c3msg2])[i]? = some m))) ∧
     (c3frame.ok = false →
      handle_ws c3frame 9 [c3msg1, c3msg2] = [c3msg1, c3msg2])) :=
  c3_reply_updates_exactly_target c3frame [c3msg1, c3msg2] 9 (by decide)

/-! ## Lemmas about the conversation-list rebuild -/

theorem odle_total (a b : Option String) : odle a b = true ∨ odle b a = true := by
  cases a <;> cases b <;> simp [odle]
  exact le_total _ _

theorem odle_trans (a b c : Option String) (h1 : odle a b = true)
    (h2 : odle b c = true) : odle a c = true := by
  cases a <;> cases b <;> cases c <;> simp_all [odle]
  exact le_trans h1 h2

instance : IsTotal (String × Option String) (fun a b => odle a.2 b.2 = true) :=
  ⟨fun a b => odle_total a.2 b.2⟩

instance : IsTrans (String × Option String) (fun a b => odle a.2 b.2 = true) :=
  ⟨fun a b c => odle_trans a.2 b.2 c.2⟩

theorem mkEntriesAux_length (l : List (String × Option String)) :
    ∀ i p, (mkEntriesAux i p l).length = l.length := by
  induction l with
  | nil => intro i p; rfl
  | cons r rest ih => intro i p; simp [mkEntriesAux, ih]

theorem mkEntriesAux_idx (l : List (String × Option String)) :
    ∀ i p (j : Nat) (e : CLEntry),
      (mkEntriesAux i p l)[j]? = some e → e.idx = i + j := by
  induction l with
  | nil =>
    intro i p j e h
    simp [mkEntriesAux] at h
  | cons r rest ih =>
    intro i p j e h
    cases j with
    | zero =>
      simp [mkEntriesAux] at h
      rw [← h]
      simp
    | succ j =>
      simp only [mkEntriesAux, List.getElem?_cons_succ] at h
      have := ih (i + 1) (some r.1) j e h
      omega

theorem mkEntriesAux_map_dn (l : List (String × Option String)) :
    ∀ i p, (mkEntriesAux i p l).map (fun e => e.display_name) =
      l.map (fun r => r.2) := by
  induction l with
  | nil => intro i p; rfl
  | cons r rest ih => intro i p; simp [mkEntriesAux, ih]

theorem mkEntriesAux_map_id (l : List (String × Option String)) :
    ∀ i p, (mkEntriesAux i p l).map (fun e => e.id) = l.map (fun r => r.1) := by
  induction l with
  | nil => intro i p; rfl
  | cons r rest ih => intro i p; simp [mkEntriesAux, ih]

theorem mkEntriesAux_head_prev (l : List (String × Option String))
    (i : Nat) (p : Option String) :
    ((mkEntriesAux i p l).head?.all (fun e => e.prev = p)) = true := by
  cases l <;> simp [mkEntriesAux]

theorem mkEntriesAux_last_next (l : List (String × Option String)) :
    ∀ i p, ((mkEntriesAux i p l).getLast?.all (fun e => e.next = none)) = true := by
  induction l with
  | nil => intro i p; simp [mkEntriesAux]
  | cons r rest ih =>
    intro i p
    cases rest with
    | nil => simp [mkEntriesAux]
    | cons q rest2 =>
      have h2 : mkEntriesAux (i + 1) (some r.1) (q :: rest2) =
          ⟨q.1, rest2.head?.map (fun x => x.1), some r.1, i + 1, q.2⟩ ::
            mkEntriesAux (i + 2) (some q.1) rest2 := rfl
      rw [mkEntriesAux, h2, List.getLast?_cons_cons, ← h2]
      exact ih (i + 1) (some r.1)

theorem mkEntriesAux_adjacent (l : List (String × Option String)) :
    ∀ i p (j : Nat) (e e' : CLEntry),
      (mkEntriesAux i p l)[j]? = some e →
      (mkEntriesAux i p l)[j + 1]? = some e' →
      e.next = some e'.id ∧ e'.prev = some e.id := by
  induction l with
  | nil =>
    intro i p j e e' h h'
    simp [mkEntriesAux] at h
  | cons r rest ih =>
    intro i p j e e' h h'
    cases j with
    | zero =>
      cases rest with
      | nil => simp [mkEntriesAux] at h'
      | cons q rest2 =>
        simp [mkEntriesAux] at h h'
        constructor
        · rw [← h, ← h']
        · rw [← h, ← h']
    | succ j =>
      simp only [mkEntriesAux, List.getElem?_cons_succ] at h h'
      exact ih (i + 1) (some r.1) j e e' h h'

theorem mkEntries_insertionSort_sorted (l : List (String × Option String)) :
    List.Sorted (fun a b => odle a b = true)
      ((mkEntries (List.insertionSort (fun a b => odle a.2 b.2 = true) l)).map
        (fun e => e.display_name)) := by
  unfold mkEntries
  rw [mkEntriesAux_map_dn]
  exact List.pairwise_map.mpr (List.sorted_insertionSort _ l)

theorem mkEntries_insertionSort_ids (l : List (String × Option String)) :
    List.Perm
      ((mkEntries (List.insertionSort (fun a b => odle a.2 b.2 = true) l)).map
        (fun e => e.id))
      (l.map (fun r => r.1)) := by
  unfold mkEntries
  rw [mkEntriesAux_map_id]
  exact (List.perm_insertionSort _ l).map _

theorem clRows_map_fst (users : List User) (convs : List Conversation) :
    (clRows users convs).map (fun r => r.1) =
      (convs.filter (fun c => c.is_member || c.is_im)).map (fun c => c.id) := by
  simp [clRows, List.map_map]

theorem clEntries_insertClRow (s : Sys) (e : CLEntry) :
    clEntries (insertClRow s e) = clEntries s ++ [e] := by
  simp [clEntries, insertClRow]

theorem clEntries_insertClRows (es : List CLEntry) :
    ∀ s : Sys, clEntries (insertClRows s es) = clEntries s ++ es := by
  induction es with
  | nil => intro s; simp [insertClRows, clEntries]
  | cons e es ih =>
    intro s
    unfold insertClRows
    rw [List.foldl_cons]
    have h1 : es.foldl insertClRow (insertClRow s e) =
        insertClRows (insertClRow s e) es := rfl
    rw [h1, ih (insertClRow s e), clEntries_insertClRow]
    simp

theorem clEntries_clDeleteAll (s : Sys) : clEntries (clDeleteAll s) = [] := by
  simp [clEntries, clDeleteAll]

/-- When the rebuilder fires, `conversation_list` afterwards holds exactly
the rebuilt rows. -/
theorem clEntries_update_fires (s : Sys) (u : StateUpdate)
    (h : ucl_fires s u = true) :
    clEntries (update_conversations_list s u) =
      rebuildEntries s.users s.conversations
        (get_input_buffer_str s "search_input_buffer") := by
  unfold update_conversations_list
  rw [if_pos h, clEntries_insertClRows, clEntries_clDeleteAll]
  simp

/-! ## LIKE-matching lemmas -/

theorem likeMatchAux_pct (t : List Char) :
    ∀ fuel, t.length + 2 ≤ fuel → likeMatchAux fuel ['%'] t = true := by
  induction t with
  | nil =>
    intro fuel h
    cases fuel with
    | zero => omega
    | succ f =>
      cases f with
      | zero => omega
      | succ f2 => simp [likeMatchAux]
  | cons c ts ih =>
    intro fuel h
    cases fuel with
    | zero => omega
    | succ f =>
      simp only [likeMatchAux, if_pos rfl]
      rw [ih f (by simp at h ⊢; omega)]
      simp

theorem likeMatchAux_wildcard_free (p : List Char) :
    ∀ (t : List Char) (fuel : Nat), (∀ ch ∈ p, ch ≠ '%' ∧ ch ≠ '_') →
      p.length + t.length + 2 ≤ fuel →
      likeMatchAux fuel (p ++ ['%']) t = startsWithCI p t := by
  induction p with
  | nil =>
    intro t fuel hp h
    simp only [List.nil_append]
    rw [likeMatchAux_pct t fuel (by simp at h ⊢; omega)]
    rfl
  | cons a ps ih =>
    intro t fuel hp h
    cases fuel with
    | zero => simp at h
    | succ f =>
      have ha := hp a (by simp)
      cases t with
      | nil => simp [likeMatchAux, startsWithCI, ha.1]
      | cons c ts =>
        simp only [List.cons_append, likeMatchAux, if_neg ha.1, startsWithCI,
          List.append_eq]
        rw [ih ts f (fun ch hch => hp ch (by simp [hch]))
          (by simp at h ⊢; omega)]
        simp [ha.2]

/-- SQLite LIKE with pattern `search%` is, for a wildcard-free search
text, exactly an ASCII-case-insensitive prefix test. -/
theorem likeMatch_wildcard_free (p t : List Char)
    (hp : ∀ ch ∈ p, ch ≠ '%' ∧ ch ≠ '_') :
    likeMatch (p ++ ['%']) t = startsWithCI p t := by
  unfold likeMatch
  apply likeMatchAux_wildcard_free p t _ hp
  simp
  omega

/-- Pushing the LIKE row filter through the join/projection `clRows`. -/
theorem rows_filter_like (users : List User) (search : String)
    (convs : List Conversation) :
    (clRows users convs).filter (fun r => rowLike search r.2) =
      (convs.filter (fun c => (c.is_member || c.is_im) &&
        likeFilter users search c)).map (fun c => (c.id, display_name users c)) := by
  induction convs with
  | nil => rfl
  | cons c convs ih =>
    by_cases hb : (c.is_member || c.is_im) = true
    · by_cases hl : likeFilter users search c = true
      · have hl' : rowLike search (display_name users c) = true := hl
        simp [clRows, List.filter_cons, hb, hl, hl'] at ih ⊢
        exact ih
      · have hl' : rowLike search (display_name users c) = false := by
          simpa [likeFilter] using hl
        simp [clRows, List.filter_cons, hb, hl, hl'] at ih ⊢
        exact ih
    · have hb' : (c.is_member || c.is_im) = false := by
        simpa using hb
      simp [clRows, List.filter_cons, hb'] at ih ⊢
      exact ih

/-- C4: after the conversation-list rebuilder fires with empty search
text, `conversation_list` holds exactly one entry per member-or-IM
conversation row (the multiset of entry ids equals the multiset of
filtered conversation ids); `idx` equals the entry's position, the display
names are in non-decreasing order, the first entry has NULL `prev`, the
last has NULL `next`, and consecutive entries name each other in
`next`/`prev`. -/
theorem c4_conversation_list_invariants (s : Sys) (u : StateUpdate)
    (hfire : ucl_fires s u = true)
    (hsearch : get_input_buffer_str s "search_input_buffer" = "") :
    List.Perm ((clEntries (update_conversations_list s u)).map (fun e => e.id))
      ((s.conversations.filter (fun c => c.is_member || c.is_im)).map
        (fun c => c.id)) ∧
    (∀ (j : Nat) (e : CLEntry),
      (clEntries (update_conversations_list s u))[j]? = some e → e.idx = j) ∧
    List.Sorted (fun a b => odle a b = true)
      ((clEntries (update_conversations_list s u)).map (fun e => e.display_name)) ∧
    ((clEntries (update_conversations_list s u)).head?.all
      (fun e => e.prev = none) = true) ∧
    ((clEntries (update_conversations_list s u)).getLast?.all
      (fun e => e.next = none) = true) ∧
    (∀ (j : Nat) (e e' : CLEntry),
      (clEntries (update_conversations_list s u))[j]? = some e →
      (clEntries (update_conversations_list s u))[j + 1]? = some e' →
      e.next = some e'.id ∧ e'.prev = some e.id) := by
  have hcl : clEntries (update_conversations_list s u) =
      mkEntries (List.insertionSort (fun a b => odle a.2 b.2 = true)
        (clRows s.users s.conversations)) := by
    rw [clEntries_update_fires s u hfire, hsearch]
    simp [rebuildEntries]
  rw [hcl]
  refine ⟨?_, ?_, ?_, ?_, ?_, ?_⟩
  · have hperm := mkEntries_insertionSort_ids (clRows s.users s.conversations)
    rw [clRows_map_fst] at hperm
    exact hperm
  · intro j e h
    have := mkEntriesAux_idx _ 0 none j e h
    omega
  · exact mkEntries_insertionSort_sorted _
  · exact mkEntriesAux_head_prev _ 0 none
  · exact mkEntriesAux_last_next _ 0 none
  · intro j e e' h h'
    exact mkEntriesAux_adjacent _ 0 none j e e' h h'

/-- C4 witness: the invariants applied at a concrete four-conversation
directory, one of them a direct message. -/
theorem c4_conversation_list_invariants_witness :
    ucl_fires c4state c4rec = true ∧
    get_input_buffer_str c4state "search_input_buffer" = "" ∧
    List.Perm ((clEntries (update_conversations_list c4state c4rec)).map
        (fun e => e.id))
      ((c4state.conversations.filter (fun c => c.is_member || c.is_im)).map
        (fun c => c.id)) ∧
    ((clEntries (update_conversations_list c4state c4rec)).head?.all
      (fun e => e.prev = none) = true) ∧
    ((clEntries (update_conversations_list c4state c4rec)).getLast?.all
      (fun e => e.next = none) = true) :=
  ⟨by decide, by decide,
   (c4_conversation_list_invariants c4state c4rec (by decide) (by decide)).1,
   (c4_conversation_list_invariants c4state c4rec (by decide) (by decide)).2.2.2.1,
   (c4_conversation_list_invariants c4state c4rec (by decide) (by decide)).2.2.2.2.1⟩

/-- C5 counterexample.  The member conversation "abc" contains the search
text "b" as a case-sensitive substring, yet the rebuilt table is empty:
the code's filter is `display_name like 'b%'`, a prefix test, not the
claimed substring containment. -/
theorem c5_substring_not_matched :
    ucl_fires c5state c5rec = true ∧
    get_input_buffer_str c5state "search_input_buffer" = "b" ∧
    c5state.conversations = [⟨"C1", some "abc", true, false, none, false⟩] ∧
    clEntries (update_conversations_list c5state c5rec) = [] ∧
    ∃ l r, ("abc").data = l ++ ("b").data ++ r :=
  ⟨by decide, by decide, by decide, by decide, ⟨['a'], ['c'], by decide⟩⟩

/-- C5 amended: with non-empty search text the regenerated table contains
exactly the member-or-direct-message conversations whose display name
matches the LIKE pattern formed by the search text plus a trailing `%` —
for wildcard-free search text, exactly those whose display name starts
with the search text compared ASCII-case-insensitively — ordered by
display name. -/
theorem c5_like_filter (s : Sys) (u : StateUpdate)
    (hfire : ucl_fires s u = true)
    (hsearch : get_input_buffer_str s "search_input_buffer" ≠ "") :
    List.Perm ((clEntries (update_conversations_list s u)).map (fun e => e.id))
      ((s.conversations.filter (fun c => (c.is_member || c.is_im) &&
          likeFilter s.users (get_input_buffer_str s "search_input_buffer") c)).map
        (fun c => c.id)) ∧
    List.Sorted (fun a b => odle a b = true)
      ((clEntries (update_conversations_list s u)).map (fun e => e.display_name)) ∧
    (∀ (p t : String), (∀ ch ∈ p.data, ch ≠ '%' ∧ ch ≠ '_') →
      likeMatch (p.data ++ ['%']) t.data = startsWithCI p.data t.data) := by
  have hcl : clEntries (update_conversations_list s u) =
      mkEntries (List.insertionSort (fun a b => odle a.2 b.2 = true)
        ((clRows s.users s.conversations).filter
          (fun r => rowLike (get_input_buffer_str s "search_input_buffer") r.2))) := by
    rw [clEntries_update_fires s u hfire]
    simp [rebuildEntries, hsearch]
  rw [hcl]
  refine ⟨?_, ?_, ?_⟩
  · have hperm := mkEntries_insertionSort_ids
      ((clRows s.users s.conversations).filter
        (fun r => rowLike (get_input_buffer_str s "search_input_buffer") r.2))
    have heq : ((clRows s.users s.conversations).filter
        (fun r => rowLike (get_input_buffer_str s "search_input_buffer") r.2)).map
          (fun r => r.1) =
        (s.conversations.filter (fun c => (c.is_member || c.is_im) &&
          likeFilter s.users (get_input_buffer_str s "search_input_buffer") c)).map
          (fun c => c.id) := by
      rw [rows_filter_like, List.map_map]
      rfl
    rw [heq] at hperm
    exact hperm
  · exact mkEntries_insertionSort_sorted _
  · intro p t hp
    exact likeMatch_wildcard_free p.data t.data hp

/-- C5 witness: the LIKE filter applied at the counterexample state, where
a prefix-matching conversation would be retained: searching "a" keeps
"abc". -/
theorem c5_like_filter_witness :
    ucl_fires c5state c5rec = true ∧
    get_input_buffer_str c5state "search_input_buffer" ≠ "" ∧
    List.Perm ((clEntries (update_conversations_list c5state c5rec)).map
        (fun e => e.id))
      ((c5state.conversations.filter (fun c => (c.is_member || c.is_im) &&
          likeFilter c5state.users
            (get_input_buffer_str c5state "search_input_buffer") c)).map
        (fun c => c.id)) :=
  ⟨by decide, by decide,
   (c5_like_filter c5state c5rec (by decide) (by decide)).1⟩

/-! ## Queue-extension lemmas: every Store write only appends records -/

theorem queue_ext_trans {s1 s2 s3 : Sys}
    (h1 : ∃ n, s2.queue = s1.queue ++ n) (h2 : ∃ n, s3.queue = s2.queue ++ n) :
    ∃ n, s3.queue = s1.queue ++ n := by
  obtain ⟨n1, h1⟩ := h1
  obtain ⟨n2, h2⟩ := h2
  exact ⟨n1 ++ n2, by rw [h2, h1, List.append_assoc]⟩

theorem queue_set_key_value (s : Sys) (k : String) (v : SqlVal) :
    ∃ n, (set_key_value s k v).queue = s.queue ++ n := by
  unfold set_key_value
  cases kvFind s k <;> exact ⟨_, rfl⟩

theorem queue_set_input_cursor_pos_sys (s : Sys) (bk ck : String) (n : Int) :
    ∃ nq, (set_input_cursor_pos_sys s bk ck n).queue = s.queue ++ nq := by
  unfold set_input_cursor_pos_sys
  split_ifs
  · exact ⟨[], by simp⟩
  · exact ⟨[], by simp⟩
  · exact queue_set_key_value s ck (.i n)

theorem queue_reset_search (s : Sys) (u : StateUpdate) :
    ∃ n, (reset_search s u).queue = s.queue ++ n := by
  unfold reset_search
  split
  · exact ⟨[], by simp⟩
  · split
    · exact ⟨[], by simp⟩
    · split
      · exact ⟨[], by simp⟩
      · split
        · exact queue_ext_trans
            (queue_set_key_value s "search_input_buffer" (.s ""))
            (queue_set_input_cursor_pos_sys _ _ _ 0)
        · exact ⟨[], by simp⟩

theorem queue_clDeleteAll (s : Sys) :
    ∃ n, (clDeleteAll s).queue = s.queue ++ n :=
  ⟨_, rfl⟩

theorem queue_insertClRow (s : Sys) (e : CLEntry) :
    ∃ n, (insertClRow s e).queue = s.queue ++ n :=
  ⟨_, rfl⟩

theorem queue_insertClRows (es : List CLEntry) :
    ∀ s : Sys, ∃ n, (insertClRows s es).queue = s.queue ++ n := by
  induction es with
  | nil => intro s; exact ⟨[], by simp [insertClRows]⟩
  | cons e es ih =>
    intro s
    unfold insertClRows
    rw [List.foldl_cons]
    exact queue_ext_trans (queue_insertClRow s e) (ih (insertClRow s e))

theorem queue_update_conversations_list (s : Sys) (u : StateUpdate) :
    ∃ n, (update_conversations_list s u).queue = s.queue ++ n := by
  unfold update_conversations_list
  split_ifs
  · exact queue_ext_trans (queue_clDeleteAll s)
      (queue_insertClRows _ (clDeleteAll s))
  · exact ⟨[], by simp⟩

theorem queue_send_pending_messages (s : Sys) (u : StateUpdate) :
    ∃ n, (send_pending_messages s u).queue = s.queue ++ n := by
  unfold send_pending_messages
  by_cases h1 : ¬ s.ws
  · rw [if_pos h1]
    exact ⟨[], by simp⟩
  · rw [if_neg h1]
    by_cases h2 : u.tablename ≠ "message"
    · rw [if_pos h2]
      exact ⟨[], by simp⟩
    · rw [if_neg h2]
      by_cases h3 : u.operation ≠ SQLITE_INSERT
      · rw [if_pos h3]
        exact ⟨[], by simp⟩
      · rw [if_neg h3]
        exact ⟨_, rfl⟩

theorem queue_fetch_selected (s : Sys) (u : StateUpdate) (s' : Sys)
    (h : fetch_selected_conversation s u = .ok s') :
    ∃ n, s'.queue = s.queue ++ n := by
  unfold fetch_selected_conversation at h
  split at h
  · cases h
    exact ⟨[], by simp⟩
  · split at h
    · cases h
      exact ⟨[], by simp⟩
    · split at h
      · cases h
        exact ⟨[], by simp⟩
      · split at h
        · simp at h
        · split at h
          · simp at h
          · split at h
            · cases h
              exact ⟨[], by simp⟩
            · cases h
              exact ⟨_, rfl⟩

theorem queue_run_state_listeners (s : Sys) (u : StateUpdate) (s' : Sys)
    (h : run_state_listeners s u = .ok s') :
    ∃ n, s'.queue = s.queue ++ n := by
  unfold run_state_listeners at h
  cases hf : fetch_selected_conversation s u with
  | error e => rw [hf] at h; simp at h
  | ok s1 =>
    rw [hf] at h
    cases h
    exact queue_ext_trans (queue_fetch_selected s u s1 hf)
      (queue_ext_trans (queue_send_pending_messages s1 u)
        (queue_ext_trans (queue_update_conversations_list _ u)
          (queue_reset_search _ u)))

/-! ## Claim C1 -/

/-- C1 counterexample.  A drain started with the single mode-change record
in the queue processes three records: `reset_search` runs during the drain
and its two Store writes (clearing the search buffer and cursor) enqueue
records that the same drain then pops and processes — not the next
invocation, as the claim states. -/
theorem c1_cascade_processed_same_drain :
    c1state.queue = [⟨SQLITE_UPDATE, "main", "kvs", 1⟩] ∧
    drained_records 10 c1state =
      some [⟨SQLITE_UPDATE, "main", "kvs", 1⟩, ⟨SQLITE_INSERT, "main", "kvs", 2⟩,
            ⟨SQLITE_INSERT, "main", "kvs", 3⟩] ∧
    drained_records 10 c1state ≠ some c1state.queue := by
  decide

/-- C1 amended: `process_state_update_queue` pops records until the queue
is empty, so records enqueued by a Reaction's Store writes during the
drain ARE processed within the same drain (they follow the records present
at the start, which form a prefix of the processed list); when the loop
returns, the queue is empty, and it processed at least one record exactly
when the queue was initially non-empty.  Termination is not guaranteed by
the loop itself — the model needs fuel — only by the registered reactions'
cascades being finite. -/
theorem c1_drain_empties_queue (fuel : Nat) :
    ∀ (s s1 : Sys) (us : List StateUpdate),
      process_state_update_queue fuel s = .ok (s1, us) →
      s1.queue = [] ∧ (us = [] ↔ s.queue = []) ∧ ∃ rest, us = s.queue ++ rest := by
  induction fuel with
  | zero =>
    intro s s1 us h
    simp [process_state_update_queue] at h
  | succ n ih =>
    intro s s1 us h
    unfold process_state_update_queue at h
    split at h
    · rename_i hq
      injection h with h1
      injection h1 with h2 h3
      subst h2
      subst h3
      exact ⟨hq, by simp [hq], ⟨[], by simp [hq]⟩⟩
    · rename_i u rest hq
      split at h
      · simp at h
      · rename_i s2 hr
        split at h
        · simp at h
        · rename_i s2f usf hd
          rw [Except.ok.injEq, Prod.mk.injEq] at h
          obtain ⟨rfl, rfl⟩ := h
          obtain ⟨hq1, hiff, rest2, hrest⟩ := ih s2 s2f usf hd
          obtain ⟨n1, hn1⟩ := queue_run_state_listeners _ u s2 hr
          refine ⟨hq1, by simp [hq], n1 ++ rest2, ?_⟩
          rw [hq, hrest, hn1]
          simp

/-- C1 witness: the amended drain contract applied to the concrete
mode-change cascade. -/
theorem c1_drain_empties_queue_witness :
    c1final.queue = [] ∧
    (([⟨SQLITE_UPDATE, "main", "kvs", 1⟩, ⟨SQLITE_INSERT, "main", "kvs", 2⟩,
       ⟨SQLITE_INSERT, "main", "kvs", 3⟩] : List StateUpdate) = [] ↔
      c1state.queue = []) ∧
    ∃ rest,
      ([⟨SQLITE_UPDATE, "main", "kvs", 1⟩, ⟨SQLITE_INSERT, "main", "kvs", 2⟩,
        ⟨SQLITE_INSERT, "main", "kvs", 3⟩] : List StateUpdate) =
        c1state.queue ++ rest :=
  c1_drain_empties_queue 10 c1state c1final
    [⟨SQLITE_UPDATE, "main", "kvs", 1⟩, ⟨SQLITE_INSERT, "main", "kvs", 2⟩,
     ⟨SQLITE_INSERT, "main", "kvs", 3⟩] rfl

end Slack
